import Mathlib

/-!
Shallow embedding of the remark-gitlab-artifact plugin (src/index.js) and
proofs of the specified properties.

The plugin scans an mdast tree for link nodes whose title contains the
literal marker segment, runs one fetch-and-extract task per matched node
against the GitLab jobs API, clears the title and appends an informational
diagnostic on success, appends an error diagnostic on failure, and never
fails the surrounding pipeline.

The external world (network and unzip extractor) is modeled as an
environment of total functions; the side effects of a run (requests issued,
extractions performed, diagnostics appended, title mutations) are returned
explicitly. Per-link tasks are modeled in scan order, one admissible
schedule of the concurrent Promise.all join.
-/

namespace Remark

/-- Source position span of a node; opaque, used only for diagnostic
attribution. -/
abbrev Position := Nat

/-- Diagnostic entry kind: vFile.info produces an informational entry, the
vFile.message call in the catch branch produces an error entry. -/
inductive MsgKind where
  | info
  | error
deriving DecidableEq, Repr

/-- One entry of the vFile's append-only diagnostic report. -/
structure Message where
  kind : MsgKind
  text : String
  pos : Position
  source : String
deriving DecidableEq, Repr

/-- The vFile: document metadata plus the diagnostic report. The
destinationDir field embeds vFile.data.destinationDir; a present empty
string is falsy in JS, which getDestinationDir reproduces. -/
structure VFile where
  destinationDir : Option String
  dirname : String
  messages : List Message
deriving DecidableEq, Repr

/-- An HTTP request as issued through fetch by getArtifact. -/
structure HttpRequest where
  method : String
  url : String
  headers : List (String × String)
deriving DecidableEq, Repr

/-- An HTTP response as observed by getArtifact: status code, status text
and the body stream (abstracted to a token). -/
structure HttpResponse where
  status : Nat
  statusText : String
  body : String
deriving DecidableEq, Repr

/-- The external world: `net` maps each request to its response, and
`extract dir body` is the outcome of piping the body stream into
unzipper.Extract at dir (ok, or the rejection's message). -/
structure Env where
  net : HttpRequest → HttpResponse
  extract : String → String → Except String Unit

/-- The plugin identifier passed as the source of every diagnostic. -/
def PLUGIN_NAME : String := "remark-gitlab-artifact"

/-- The literal marker segment searched for in link titles. -/
def marker : String := "gitlab-artifact|"

/-- Embeds the JS test `title.indexOf(m) !== -1`: m occurs as a contiguous
segment of s. -/
def hasSeg (m : List Char) : List Char → Bool
  | [] => m.isEmpty
  | c :: rest => m.isPrefixOf (c :: rest) || hasSeg m rest

/-- Embeds JS `title.split('|')` (single-character separator split, as used
by the destructuring in visitLink): accumulator-based scan of the title. -/
def splitAux : List Char → List Char → List String
  | [], acc => [String.mk acc.reverse]
  | c :: rest, acc =>
      if c = '|' then String.mk acc.reverse :: splitAux rest []
      else splitAux rest (c :: acc)

/-- JS `title.split('|')` on a whole string. -/
def splitPipe (s : String) : List String := splitAux s.data []

/-- JS template-literal interpolation of a possibly-undefined value: an
absent field renders as the literal text undefined. -/
def jsStr : Option String → String
  | some s => s
  | none => "undefined"

/-- The filter of the visit callback: skip when `!title` (absent or empty)
or when the marker does not occur in the title. -/
def matchTitle : Option String → Bool
  | none => false
  | some t => !t.isEmpty && hasSeg marker.data t.data

/-- getDestinationDir: the explicit vFile.data.destinationDir override when
truthy (present and non-empty), else the file's own directory. -/
def getDestinationDir (vFile : VFile) : String :=
  match vFile.destinationDir with
  | some d => if d.isEmpty then vFile.dirname else d
  | none => vFile.dirname

/-- The fixed GitLab endpoint URL built by getArtifact: API version v4 and
branch ref master are constants. -/
def artifactUrl (apiBase projectId jobName : String) : String :=
  apiBase ++ "/api/v4/projects/" ++ projectId ++
    "/jobs/artifacts/master/download?job=" ++ jobName

/-- The request issued by getArtifact via fetch: a GET carrying the single
PRIVATE-TOKEN header. -/
def artifactRequest (apiBase token projectId jobName : String) : HttpRequest :=
  { method := "GET"
    url := artifactUrl apiBase projectId jobName
    headers := [("PRIVATE-TOKEN", token)] }

/-- getArtifact: issue the fetch and classify the response. Status 200
yields the body stream; any other status throws an Error whose message is
the status text, the word from, the URL and a final period. The request
issued is returned alongside for observability. -/
def getArtifact (env : Env) (apiBase token projectId jobName : String) :
    Except String String × HttpRequest :=
  let req := artifactRequest apiBase token projectId jobName
  let response := env.net req
  if response.status ≠ 200 then
    (Except.error (response.statusText ++ " from " ++ req.url ++ "."), req)
  else
    (Except.ok response.body, req)

/-- Outcome of one per-link task: the link's title afterwards, the single
diagnostic entry appended, the single request issued, and the extraction
performed (destination directory, body) when fetch and extract ran. -/
structure TaskResult where
  newTitle : String
  msg : Message
  req : HttpRequest
  extracted : Option (String × String)
deriving DecidableEq, Repr

/-- One fetch-and-extract task of the Promise.all in visitLink, for a
matched node carrying the given title and position. The title is split on
the pipe character and fields 1 and 2 are taken as projectId and jobName;
a missing field interpolates as undefined. -/
def runTask (env : Env) (apiBase token : String) (vFile : VFile)
    (title : String) (pos : Position) : TaskResult :=
  let fields := splitPipe title
  let projectId := fields[1]?
  let jobName := fields[2]?
  let (res, req) := getArtifact env apiBase token (jsStr projectId) (jsStr jobName)
  match res with
  | .error e => ⟨title, ⟨.error, e, pos, PLUGIN_NAME⟩, req, none⟩
  | .ok body =>
    let destinationDir := getDestinationDir vFile
    match env.extract destinationDir body with
    | .error e => ⟨title, ⟨.error, e, pos, PLUGIN_NAME⟩, req, none⟩
    | .ok _ =>
        ⟨"", ⟨.info, "artifacts fetched from " ++ jsStr projectId ++ " " ++ jsStr jobName,
          pos, PLUGIN_NAME⟩, req, some (destinationDir, body)⟩

/-- An mdast node: a link node with optional title, position and children,
or any other node with children. Only link titles are read or written by
the plugin. -/
inductive Ast where
  | link (title : Option String) (pos : Position) (children : List Ast)
  | other (children : List Ast)
deriving Repr

mutual
/-- The scan of visitLink: collect, in depth-first preorder, the title and
position of every link node whose title matches. -/
def collectLinks : Ast → List (String × Position)
  | .link t p cs => (if matchTitle t then [(t.getD "", p)] else []) ++ collectLinksList cs
  | .other cs => collectLinksList cs

/-- The scan over a list of sibling nodes, left to right. -/
def collectLinksList : List Ast → List (String × Position)
  | [] => []
  | a :: as => collectLinks a ++ collectLinksList as
end

mutual
/-- In-place title mutation after the tasks ran: the matched link nodes, in
preorder, consume the next entry of ts as their new title; every other node
and field is untouched. Returns the rewritten tree and the unconsumed
titles. -/
def applyTitles : Ast → List String → Ast × List String
  | .link t p cs, ts =>
      if matchTitle t then
        match ts with
        | [] =>
            let r := applyTitlesList cs []
            (.link t p r.1, r.2)
        | s :: rest =>
            let r := applyTitlesList cs rest
            (.link (some s) p r.1, r.2)
      else
        let r := applyTitlesList cs ts
        (.link t p r.1, r.2)
  | .other cs, ts =>
      let r := applyTitlesList cs ts
      (.other r.1, r.2)

/-- Title mutation over a list of sibling nodes, threading the titles. -/
def applyTitlesList : List Ast → List String → List Ast × List String
  | [], ts => ([], ts)
  | a :: as, ts =>
      let r₁ := applyTitles a ts
      let r₂ := applyTitlesList as r₁.2
      (r₁.1 :: r₂.1, r₂.2)
end

/-- The observable outcome of one visitLink run: resulting tree, resulting
vFile, and the network and extraction side effects in scan order. -/
structure RunResult where
  ast : Ast
  vFile : VFile
  reqs : List HttpRequest
  extracts : List (String × String)

/-- visitLink: scan the tree; when nothing matched, resolve immediately with
zero side effects; otherwise run one task per matched node and apply all
effects (title mutations, one diagnostic per node, requests, extractions). -/
def visitLink (env : Env) (apiBase token : String) (ast : Ast) (vFile : VFile) :
    RunResult :=
  let nodes := collectLinks ast
  if nodes.isEmpty then ⟨ast, vFile, [], []⟩
  else
    let results := nodes.map (fun tp => runTask env apiBase token vFile tp.1 tp.2)
    ⟨(applyTitles ast (results.map TaskResult.newTitle)).1,
     { vFile with messages := vFile.messages ++ results.map TaskResult.msg },
     results.map TaskResult.req,
     results.filterMap TaskResult.extracted⟩

/-- visitLink interrupted by an internal fault after the first n tasks
completed: only the effects of those tasks are applied, the rest of the run
is lost to the fault. -/
def visitLinkPartial (env : Env) (apiBase token : String) (ast : Ast) (vFile : VFile)
    (n : Nat) : RunResult :=
  let nodes := collectLinks ast
  if nodes.isEmpty then ⟨ast, vFile, [], []⟩
  else
    let results := (nodes.take n).map (fun tp => runTask env apiBase token vFile tp.1 tp.2)
    ⟨(applyTitles ast (results.map TaskResult.newTitle)).1,
     { vFile with messages := vFile.messages ++ results.map TaskResult.msg },
     results.map TaskResult.req,
     results.filterMap TaskResult.extracted⟩

/-- The transformer returned by the attacher: visitLink runs inside
try/catch, so an orchestration fault (modeled as an interruption point
after the given number of tasks) is swallowed, and the tree and vFile are
returned to the pipeline regardless. -/
def transformer (env : Env) (apiBase token : String) (fault : Option Nat)
    (ast : Ast) (vFile : VFile) : Ast × VFile :=
  match fault with
  | none =>
      let r := visitLink env apiBase token ast vFile
      (r.ast, r.vFile)
  | some n =>
      let r := visitLinkPartial env apiBase token ast vFile n
      (r.ast, r.vFile)

/-- Two trees that agree on everything except possibly the titles of link
nodes: same constructors, positions and child structure throughout. -/
inductive SameShape : Ast → Ast → Prop
  | link (t t' : Option String) (p : Position) (cs cs' : List Ast) :
      List.Forall₂ SameShape cs cs' → SameShape (.link t p cs) (.link t' p cs')
  | other (cs cs' : List Ast) :
      List.Forall₂ SameShape cs cs' → SameShape (.other cs) (.other cs')

/-- The projectId parsed from a title: field 1 of the pipe split. -/
def titleProjectId (t : String) : String := jsStr (splitPipe t)[1]?

/-- The jobName parsed from a title: field 2 of the pipe split. -/
def titleJobName (t : String) : String := jsStr (splitPipe t)[2]?

/-- The request a task for a link with the given title issues. -/
def titleRequest (apiBase token t : String) : HttpRequest :=
  artifactRequest apiBase token (titleProjectId t) (titleJobName t)

mutual
theorem sameShape_refl : ∀ (a : Ast), SameShape a a
  | .link t p cs => .link t t p cs cs (sameShapeList_refl cs)
  | .other cs => .other cs cs (sameShapeList_refl cs)

theorem sameShapeList_refl : ∀ (as : List Ast), List.Forall₂ SameShape as as
  | [] => .nil
  | a :: as => .cons (sameShape_refl a) (sameShapeList_refl as)
end

mutual
theorem sameShape_applyTitles : ∀ (a : Ast) (ts : List String), SameShape a (applyTitles a ts).1
  | .link t p cs, ts => by
      by_cases ht : matchTitle t = true
      · cases ts with
        | nil =>
            simp only [applyTitles, if_pos ht]
            exact .link t t p cs _ (sameShapeList_applyTitlesList cs [])
        | cons s rest =>
            simp only [applyTitles, if_pos ht]
            exact .link t (some s) p cs _ (sameShapeList_applyTitlesList cs rest)
      · simp only [applyTitles, if_neg ht]
        exact .link t t p cs _ (sameShapeList_applyTitlesList cs ts)
  | .other cs, ts => by
      simp only [applyTitles]
      exact .other cs _ (sameShapeList_applyTitlesList cs ts)

theorem sameShapeList_applyTitlesList :
    ∀ (as : List Ast) (ts : List String), List.Forall₂ SameShape as (applyTitlesList as ts).1
  | [], ts => by simp only [applyTitlesList]; exact .nil
  | a :: as, ts => by
      simp only [applyTitlesList]
      exact .cons (sameShape_applyTitles a ts) (sameShapeList_applyTitlesList as _)
end

theorem runTask_eq_of_fail (env : Env) (apiBase token : String) (v : VFile)
    (t : String) (p : Position)
    (h : (env.net (titleRequest apiBase token t)).status ≠ 200) :
    runTask env apiBase token v t p =
      ⟨t,
       ⟨.error,
        (env.net (titleRequest apiBase token t)).statusText ++ " from " ++
          (titleRequest apiBase token t).url ++ ".",
        p, PLUGIN_NAME⟩,
       titleRequest apiBase token t, none⟩ := by
  simp only [runTask, getArtifact, titleRequest, titleProjectId, titleJobName] at *
  rw [if_pos h]

theorem runTask_eq_of_ok (env : Env) (apiBase token : String) (v : VFile)
    (t : String) (p : Position)
    (h : (env.net (titleRequest apiBase token t)).status = 200)
    (hex : env.extract (getDestinationDir v) (env.net (titleRequest apiBase token t)).body =
      Except.ok ()) :
    runTask env apiBase token v t p =
      ⟨"",
       ⟨.info, "artifacts fetched from " ++ titleProjectId t ++ " " ++ titleJobName t,
        p, PLUGIN_NAME⟩,
       titleRequest apiBase token t,
       some (getDestinationDir v, (env.net (titleRequest apiBase token t)).body)⟩ := by
  simp only [runTask, getArtifact, titleRequest, titleProjectId, titleJobName] at *
  rw [if_neg (by simp [h])]
  simp only [hex]

theorem runTask_eq_of_extract_fail (env : Env) (apiBase token : String) (v : VFile)
    (t : String) (p : Position) (e : String)
    (h : (env.net (titleRequest apiBase token t)).status = 200)
    (hex : env.extract (getDestinationDir v) (env.net (titleRequest apiBase token t)).body =
      Except.error e) :
    runTask env apiBase token v t p =
      ⟨t, ⟨.error, e, p, PLUGIN_NAME⟩, titleRequest apiBase token t, none⟩ := by
  simp only [runTask, getArtifact, titleRequest, titleProjectId, titleJobName] at *
  rw [if_neg (by simp [h])]
  simp only [hex]

theorem runTask_req (env : Env) (apiBase token : String) (v : VFile)
    (t : String) (p : Position) :
    (runTask env apiBase token v t p).req = titleRequest apiBase token t := by
  simp only [runTask, getArtifact, titleRequest, titleProjectId, titleJobName]
  by_cases h : (env.net (artifactRequest apiBase token (jsStr (splitPipe t)[1]?)
      (jsStr (splitPipe t)[2]?))).status ≠ 200
  · rw [if_pos h]
  · rw [if_neg h]
    cases hx : env.extract (getDestinationDir v)
        (env.net (artifactRequest apiBase token (jsStr (splitPipe t)[1]?)
          (jsStr (splitPipe t)[2]?))).body <;> simp [hx]

theorem runTask_extracted_dir (env : Env) (apiBase token : String) (v : VFile)
    (t : String) (p : Position) (pr : String × String)
    (h : (runTask env apiBase token v t p).extracted = some pr) :
    pr.1 = getDestinationDir v := by
  simp only [runTask, getArtifact] at h
  by_cases hs : (env.net (artifactRequest apiBase token (jsStr (splitPipe t)[1]?)
      (jsStr (splitPipe t)[2]?))).status ≠ 200
  · rw [if_pos hs] at h
    simp at h
  · rw [if_neg hs] at h
    cases hx : env.extract (getDestinationDir v)
        (env.net (artifactRequest apiBase token (jsStr (splitPipe t)[1]?)
          (jsStr (splitPipe t)[2]?))).body with
    | error e => simp [hx] at h
    | ok u =>
        simp only [hx] at h
        simp at h
        rw [← h]

/-- The whole visitLink run, spelled out, when at least one node matched. -/
theorem visitLink_eq (env : Env) (apiBase token : String) (ast : Ast) (v : VFile)
    (h : collectLinks ast ≠ []) :
    visitLink env apiBase token ast v =
      ⟨(applyTitles ast (((collectLinks ast).map
          (fun tp => runTask env apiBase token v tp.1 tp.2)).map TaskResult.newTitle)).1,
       { v with messages := v.messages ++ ((collectLinks ast).map
          (fun tp => runTask env apiBase token v tp.1 tp.2)).map TaskResult.msg },
       ((collectLinks ast).map (fun tp => runTask env apiBase token v tp.1 tp.2)).map
         TaskResult.req,
       ((collectLinks ast).map (fun tp => runTask env apiBase token v tp.1 tp.2)).filterMap
         TaskResult.extracted⟩ := by
  simp only [visitLink]
  rw [if_neg (by simp [List.isEmpty_eq_true, h])]

mutual
/-- Writing blank titles into the first matched nodes: the remaining matched
nodes are exactly the unconsumed tail of the original scan, and the
unconsumed titles are the tail past the matched count. -/
theorem collectLinks_applyTitles_blank :
    ∀ (a : Ast) (ts : List String), (∀ s ∈ ts, s = "") →
      collectLinks (applyTitles a ts).1 = (collectLinks a).drop ts.length ∧
      (applyTitles a ts).2 = ts.drop (collectLinks a).length
  | .link t p cs, ts, h => by
      by_cases ht : matchTitle t = true
      · cases ts with
        | nil =>
            have ih := collectLinksList_applyTitlesList_blank cs [] (by simp)
            simp only [applyTitles, if_pos ht, collectLinks, List.drop_nil, List.drop_zero,
              List.length_nil] at *
            exact ⟨by rw [ih.1], ih.2⟩
        | cons s rest =>
            have hs : s = "" := h s (by simp)
            have ih := collectLinksList_applyTitlesList_blank cs rest
              (fun x hx => h x (by simp [hx]))
            subst hs
            have hm : matchTitle (some "") = false := by decide
            simp only [applyTitles, if_pos ht, collectLinks] at *
            constructor
            · rw [ih.1]
              simp [hm]
            · rw [ih.2]
              simp
      · have ih := collectLinksList_applyTitlesList_blank cs ts h
        simp only [applyTitles, if_neg ht, collectLinks] at *
        constructor
        · rw [ih.1]
          simp [ht]
        · rw [ih.2]
          simp [ht]
  | .other cs, ts, h => by
      have ih := collectLinksList_applyTitlesList_blank cs ts h
      simpa only [applyTitles, collectLinks] using ih

theorem collectLinksList_applyTitlesList_blank :
    ∀ (as : List Ast) (ts : List String), (∀ s ∈ ts, s = "") →
      collectLinksList (applyTitlesList as ts).1 = (collectLinksList as).drop ts.length ∧
      (applyTitlesList as ts).2 = ts.drop (collectLinksList as).length
  | [], ts, h => by simp [applyTitlesList, collectLinksList]
  | a :: as, ts, h => by
      have ih₁ := collectLinks_applyTitles_blank a ts h
      have h₂ : ∀ s ∈ (applyTitles a ts).2, s = "" := by
        intro s hs
        rw [ih₁.2] at hs
        exact h s (List.mem_of_mem_drop hs)
      have ih₂ := collectLinksList_applyTitlesList_blank as (applyTitles a ts).2 h₂
      simp only [applyTitlesList, collectLinksList]
      constructor
      · rw [ih₂.1, ih₁.1, ih₁.2, List.length_drop,
          List.drop_append_eq_append_drop]
      · rw [ih₂.2, ih₁.2, List.drop_drop, List.length_append]
end

/-- hasSeg is exactly contiguous-segment occurrence. -/
theorem hasSeg_iff (m s : List Char) :
    hasSeg m s = true ↔ ∃ a b, s = a ++ m ++ b := by
  induction s with
  | nil =>
      simp only [hasSeg, List.isEmpty_eq_true]
      constructor
      · intro h
        exact ⟨[], [], by simp [h]⟩
      · rintro ⟨a, b, hab⟩
        have := hab.symm
        simp only [List.append_eq_nil, List.append_assoc] at this
        exact this.2.1
  | cons c rest ih =>
      simp only [hasSeg, Bool.or_eq_true]
      constructor
      · rintro (hp | hr)
        · obtain ⟨u, hu⟩ := List.isPrefixOf_iff_prefix.mp hp
          exact ⟨[], u, by simp [← hu]⟩
        · obtain ⟨a, b, hab⟩ := ih.mp hr
          exact ⟨c :: a, b, by simp [hab]⟩
      · rintro ⟨a, b, hab⟩
        cases a with
        | nil =>
            left
            exact List.isPrefixOf_iff_prefix.mpr ⟨b, by simpa using hab.symm⟩
        | cons c' a' =>
            right
            simp only [List.cons_append, List.cons.injEq] at hab
            exact ih.mpr ⟨a', b, hab.2⟩

/-- The match predicate characterized: a present title matches exactly when
it is non-empty and the marker occurs somewhere inside it. -/
theorem matchTitle_iff (t : String) :
    matchTitle (some t) = true ↔ t ≠ "" ∧ ∃ a b : String, t = a ++ marker ++ b := by
  simp only [matchTitle, Bool.and_eq_true, Bool.not_eq_true']
  constructor
  · rintro ⟨he, hs⟩
    refine ⟨fun hc => by rw [hc] at he; exact absurd he (by decide), ?_⟩
    obtain ⟨a, b, hab⟩ := (hasSeg_iff marker.data t.data).mp hs
    refine ⟨⟨a⟩, ⟨b⟩, String.ext ?_⟩
    simpa using hab
  · rintro ⟨hne, a, b, hab⟩
    constructor
    · cases he : t.isEmpty
      · rfl
      · exact absurd ((String.isEmpty_iff t).mp he) hne
    · refine (hasSeg_iff marker.data t.data).mpr ⟨a.data, b.data, ?_⟩
      rw [hab]
      simp

/-- The whole visitLink run when nothing matched: zero side effects. -/
theorem visitLink_eq_empty (env : Env) (apiBase token : String) (ast : Ast) (v : VFile)
    (h : collectLinks ast = []) :
    visitLink env apiBase token ast v = ⟨ast, v, [], []⟩ := by
  simp only [visitLink]
  rw [if_pos (by simp [List.isEmpty_eq_true, h])]

/-- The interrupted visitLink run, spelled out, when at least one node
matched. -/
theorem visitLinkPartial_eq (env : Env) (apiBase token : String) (ast : Ast) (v : VFile)
    (n : Nat) (h : collectLinks ast ≠ []) :
    visitLinkPartial env apiBase token ast v n =
      ⟨(applyTitles ast ((((collectLinks ast).take n).map
          (fun tp => runTask env apiBase token v tp.1 tp.2)).map TaskResult.newTitle)).1,
       { v with messages := v.messages ++ (((collectLinks ast).take n).map
          (fun tp => runTask env apiBase token v tp.1 tp.2)).map TaskResult.msg },
       (((collectLinks ast).take n).map (fun tp => runTask env apiBase token v tp.1 tp.2)).map
         TaskResult.req,
       (((collectLinks ast).take n).map (fun tp => runTask env apiBase token v tp.1 tp.2)).filterMap
         TaskResult.extracted⟩ := by
  simp only [visitLinkPartial]
  rw [if_neg (by simp [List.isEmpty_eq_true, h])]

/-- The interrupted visitLink run when nothing matched: zero side effects. -/
theorem visitLinkPartial_eq_empty (env : Env) (apiBase token : String) (ast : Ast)
    (v : VFile) (n : Nat) (h : collectLinks ast = []) :
    visitLinkPartial env apiBase token ast v n = ⟨ast, v, [], []⟩ := by
  simp only [visitLinkPartial]
  rw [if_pos (by simp [List.isEmpty_eq_true, h])]

/-- The tree a matching run returns: titles written in scan order. -/
theorem visitLink_ast (env : Env) (apiBase token : String) (ast : Ast) (v : VFile)
    (hne : collectLinks ast ≠ []) :
    (visitLink env apiBase token ast v).ast =
      (applyTitles ast (((collectLinks ast).map
        (fun tp => runTask env apiBase token v tp.1 tp.2)).map TaskResult.newTitle)).1 := by
  rw [visitLink_eq env apiBase token ast v hne]

/-- The vFile a matching run returns: one diagnostic appended per node. -/
theorem visitLink_vFile (env : Env) (apiBase token : String) (ast : Ast) (v : VFile)
    (hne : collectLinks ast ≠ []) :
    (visitLink env apiBase token ast v).vFile =
      { v with messages := v.messages ++ ((collectLinks ast).map
        (fun tp => runTask env apiBase token v tp.1 tp.2)).map TaskResult.msg } := by
  rw [visitLink_eq env apiBase token ast v hne]

/-- The requests a matching run issues: one per matched node, scan order. -/
theorem visitLink_reqs (env : Env) (apiBase token : String) (ast : Ast) (v : VFile)
    (hne : collectLinks ast ≠ []) :
    (visitLink env apiBase token ast v).reqs =
      ((collectLinks ast).map (fun tp => runTask env apiBase token v tp.1 tp.2)).map
        TaskResult.req := by
  rw [visitLink_eq env apiBase token ast v hne]

/-- The extractions a matching run performs. -/
theorem visitLink_extracts (env : Env) (apiBase token : String) (ast : Ast) (v : VFile)
    (hne : collectLinks ast ≠ []) :
    (visitLink env apiBase token ast v).extracts =
      ((collectLinks ast).map (fun tp => runTask env apiBase token v tp.1 tp.2)).filterMap
        TaskResult.extracted := by
  rw [visitLink_eq env apiBase token ast v hne]

/-- The diagnostic entry for matched node number i is its own task's
message, sitting right past the pre-existing entries. -/
theorem visitLink_message_at (env : Env) (apiBase token : String) (ast : Ast) (v : VFile)
    (i : Nat) (t : String) (p : Position)
    (hnode : (collectLinks ast)[i]? = some (t, p)) :
    (visitLink env apiBase token ast v).vFile.messages[v.messages.length + i]? =
      some (runTask env apiBase token v t p).msg := by
  have hne : collectLinks ast ≠ [] := by
    intro hemp
    rw [hemp] at hnode
    simp at hnode
  rw [visitLink_eq env apiBase token ast v hne]
  simp only []
  rw [List.getElem?_append_right (Nat.le_add_right _ _), Nat.add_sub_cancel_left,
    List.getElem?_map, List.getElem?_map, hnode]
  rfl

/-- A run on a tree with matches appends exactly one diagnostic entry per
matched node. -/
theorem visitLink_messages_length (env : Env) (apiBase token : String) (ast : Ast)
    (v : VFile) (hne : collectLinks ast ≠ []) :
    (visitLink env apiBase token ast v).vFile.messages.length =
      v.messages.length + (collectLinks ast).length := by
  rw [visitLink_eq env apiBase token ast v hne]
  simp

/-- A network that always answers 404 Not Found. -/
def netFail : HttpRequest → HttpResponse := fun _ => ⟨404, "Not Found", "artifactZip"⟩

/-- A network that always answers 200 with the archive bytes. -/
def netOk : HttpRequest → HttpResponse := fun _ => ⟨200, "OK", "artifactZip"⟩

/-- An extractor that always succeeds. -/
def extractOk : String → String → Except String Unit := fun _ _ => Except.ok ()

/-- Environment whose every fetch fails with 404. -/
def envFail : Env := ⟨netFail, extractOk⟩

/-- Environment whose every fetch and extraction succeeds. -/
def envOk : Env := ⟨netOk, extractOk⟩

/-- A vFile carrying a destinationDir override and an empty report. -/
def vSample : VFile := ⟨some "/out", "/docs", []⟩

/-- A document with one well-formed artifact reference. -/
def astSample : Ast := .other [.link (some "gitlab-artifact|1095|build:docs") 7 []]

/-- A document whose only reference is malformed: the marker is present but
one of the two trailing segments is missing. -/
def astMalformed : Ast := .other [.link (some "gitlab-artifact|onlyOneField") 7 []]

/-- A document with links but no artifact reference at all. -/
def astNoMatch : Ast := .other [.link (some "plain title") 3 [], .link none 4 [.other []]]

/-- C5: on a document with zero matching links the transformer performs no
network call, leaves the tree unchanged (the very same tree and vFile are
returned), and appends no diagnostic entry. -/
theorem noMatch_noEffects (env : Env) (apiBase token : String) (ast : Ast) (v : VFile)
    (h : collectLinks ast = []) :
    visitLink env apiBase token ast v = ⟨ast, v, [], []⟩ ∧
    ∀ fault, transformer env apiBase token fault ast v = (ast, v) := by
  refine ⟨visitLink_eq_empty env apiBase token ast v h, ?_⟩
  intro fault
  cases fault with
  | none => simp only [transformer, visitLink_eq_empty env apiBase token ast v h]
  | some n => simp only [transformer, visitLinkPartial_eq_empty env apiBase token ast v n h]

/-- C5 witness: a concrete document whose links carry no artifact
reference. -/
theorem noMatch_noEffects_witness :
    visitLink envOk "https://gitlab.example" "tokenB" astNoMatch vSample =
      ⟨astNoMatch, vSample, [], []⟩ ∧
    transformer envOk "https://gitlab.example" "tokenB" none astNoMatch vSample =
      (astNoMatch, vSample) := by
  have h := noMatch_noEffects envOk "https://gitlab.example" "tokenB" astNoMatch vSample
    (by decide)
  exact ⟨h.1, h.2 none⟩

/-- C6: getArtifact issues exactly one GET request, to the fixed v4/master
endpoint URL built from apiBase, projectId and jobName, carrying the single
PRIVATE-TOKEN header, and returns the response body exactly when the status
is 200 (any other status yields the statusText-and-URL error). -/
theorem getArtifact_request (env : Env) (apiBase token projectId jobName : String) :
    getArtifact env apiBase token projectId jobName =
      (if (env.net (artifactRequest apiBase token projectId jobName)).status = 200
        then Except.ok (env.net (artifactRequest apiBase token projectId jobName)).body
        else Except.error
          ((env.net (artifactRequest apiBase token projectId jobName)).statusText ++
            " from " ++ artifactUrl apiBase projectId jobName ++ "."),
       artifactRequest apiBase token projectId jobName) ∧
    artifactRequest apiBase token projectId jobName =
      ⟨"GET",
       apiBase ++ "/api/v4/projects/" ++ projectId ++
         "/jobs/artifacts/master/download?job=" ++ jobName,
       [("PRIVATE-TOKEN", token)]⟩ := by
  refine ⟨?_, rfl⟩
  simp only [getArtifact]
  by_cases h : (env.net (artifactRequest apiBase token projectId jobName)).status = 200
  · rw [if_neg (by simp [h]), if_pos h]
  · rw [if_pos h, if_neg h]
    rfl

/-- C7: the destination directory is the document-level destinationDir
override when present and truthy, and the document's own directory
otherwise; every extraction of a run writes to that one resolved
directory. -/
theorem destinationDir_resolution (env : Env) (apiBase token : String) (ast : Ast)
    (v : VFile) :
    (∀ d, v.destinationDir = some d → d ≠ "" → getDestinationDir v = d) ∧
    (v.destinationDir = none → getDestinationDir v = v.dirname) ∧
    (v.destinationDir = some "" → getDestinationDir v = v.dirname) ∧
    (∀ pr ∈ (visitLink env apiBase token ast v).extracts, pr.1 = getDestinationDir v) := by
  refine ⟨?_, ?_, ?_, ?_⟩
  · intro d hd hne
    simp only [getDestinationDir, hd]
    rw [if_neg (fun hh => hne ((String.isEmpty_iff d).mp hh))]
  · intro hd
    simp [getDestinationDir, hd]
  · intro hd
    simp [getDestinationDir, hd, String.isEmpty_iff]
  · intro pr hpr
    rcases eq_or_ne (collectLinks ast) [] with he | he
    · rw [visitLink_eq_empty env apiBase token ast v he] at hpr
      simp at hpr
    · rw [visitLink_eq env apiBase token ast v he] at hpr
      simp only [List.mem_filterMap, List.mem_map] at hpr
      obtain ⟨r, ⟨tp, _, rfl⟩, hre⟩ := hpr
      exact runTask_extracted_dir env apiBase token v tp.1 tp.2 pr hre

/-- C7 witness: the override directory wins when present, the file's own
directory is used when it is absent, and the one concrete extraction of a
successful run lands in the resolved directory. -/
theorem destinationDir_resolution_witness :
    getDestinationDir vSample = "/out" ∧
    getDestinationDir ⟨none, "/docs", []⟩ = "/docs" ∧
    ("/out", "artifactZip").1 = getDestinationDir vSample := by
  refine ⟨?_, ?_, ?_⟩
  · exact (destinationDir_resolution envOk "https://gitlab.example" "tokenB" astSample
      vSample).1 "/out" rfl (by decide)
  · exact (destinationDir_resolution envOk "https://gitlab.example" "tokenB" astSample
      ⟨none, "/docs", []⟩).2.1 rfl
  · exact (destinationDir_resolution envOk "https://gitlab.example" "tokenB" astSample
      vSample).2.2.2 ("/out", "artifactZip") (by decide)

/-- C2: whatever the environment and whatever internal fault point, the
transformer returns a tree of the very same shape (only link titles may
differ) together with a vFile that extends the original diagnostic report
and keeps the document metadata: it never fails the pipeline and never
loses an already-recorded entry. -/
theorem transformer_never_fails (env : Env) (apiBase token : String) (fault : Option Nat)
    (ast : Ast) (v : VFile) :
    SameShape ast (transformer env apiBase token fault ast v).1 ∧
    ∃ appended,
      (transformer env apiBase token fault ast v).2.messages = v.messages ++ appended ∧
      (transformer env apiBase token fault ast v).2.destinationDir = v.destinationDir ∧
      (transformer env apiBase token fault ast v).2.dirname = v.dirname := by
  rcases eq_or_ne (collectLinks ast) [] with he | he
  · cases fault with
    | none =>
        simp only [transformer, visitLink_eq_empty env apiBase token ast v he]
        exact ⟨sameShape_refl ast, [], by simp, trivial, trivial⟩
    | some n =>
        simp only [transformer, visitLinkPartial_eq_empty env apiBase token ast v n he]
        exact ⟨sameShape_refl ast, [], by simp, trivial, trivial⟩
  · cases fault with
    | none =>
        simp only [transformer, visitLink_eq env apiBase token ast v he]
        exact ⟨sameShape_applyTitles ast _, _, rfl, trivial, trivial⟩
    | some n =>
        simp only [transformer, visitLinkPartial_eq env apiBase token ast v n he]
        exact ⟨sameShape_applyTitles ast _, _, rfl, trivial, trivial⟩

/-- C3: for matched node number i, when its fetch answers non-200 the run
appends (at that node's slot, among exactly one entry per matched node) an
error diagnostic carrying the status text and the request URL, attributed
to the node's position, and the task leaves the title unchanged and
extracts nothing; an extraction failure after a 200 likewise yields one
error entry carrying the cause and leaves the title unchanged. -/
theorem fetchFailure_reported (env : Env) (apiBase token : String) (ast : Ast) (v : VFile)
    (i : Nat) (t : String) (p : Position)
    (hnode : (collectLinks ast)[i]? = some (t, p)) :
    (visitLink env apiBase token ast v).vFile.messages.length =
      v.messages.length + (collectLinks ast).length ∧
    ((env.net (titleRequest apiBase token t)).status ≠ 200 →
      (visitLink env apiBase token ast v).vFile.messages[v.messages.length + i]? =
        some ⟨.error,
          (env.net (titleRequest apiBase token t)).statusText ++ " from " ++
            (titleRequest apiBase token t).url ++ ".",
          p, PLUGIN_NAME⟩ ∧
      (runTask env apiBase token v t p).newTitle = t ∧
      (runTask env apiBase token v t p).extracted = none) ∧
    (∀ e, (env.net (titleRequest apiBase token t)).status = 200 →
      env.extract (getDestinationDir v) (env.net (titleRequest apiBase token t)).body =
        Except.error e →
      (visitLink env apiBase token ast v).vFile.messages[v.messages.length + i]? =
        some ⟨.error, e, p, PLUGIN_NAME⟩ ∧
      (runTask env apiBase token v t p).newTitle = t ∧
      (runTask env apiBase token v t p).extracted = none) := by
  have hne : collectLinks ast ≠ [] := by
    intro hemp
    rw [hemp] at hnode
    simp at hnode
  refine ⟨visitLink_messages_length env apiBase token ast v hne, fun hs => ?_, ?_⟩
  · have hr := runTask_eq_of_fail env apiBase token v t p hs
    refine ⟨?_, ?_, ?_⟩
    · rw [visitLink_message_at env apiBase token ast v i t p hnode, hr]
    · rw [hr]
    · rw [hr]
  · intro e h200 hex
    have hr := runTask_eq_of_extract_fail env apiBase token v t p e h200 hex
    refine ⟨?_, ?_, ?_⟩
    · rw [visitLink_message_at env apiBase token ast v i t p hnode, hr]
    · rw [hr]
    · rw [hr]

/-- C3 witness: one matching link, a 404 network: exactly one diagnostic,
an error entry carrying the status text and URL at the node's position, and
the task keeps the title. -/
theorem fetchFailure_reported_witness :
    (visitLink envFail "https://gitlab.example" "tokenA" astSample vSample).vFile.messages.length = 1 ∧
    (visitLink envFail "https://gitlab.example" "tokenA" astSample vSample).vFile.messages[0]? =
      some ⟨.error,
        "Not Found from https://gitlab.example/api/v4/projects/1095/jobs/artifacts/master/download?job=build:docs.",
        7, "remark-gitlab-artifact"⟩ ∧
    (runTask envFail "https://gitlab.example" "tokenA" vSample
      "gitlab-artifact|1095|build:docs" 7).newTitle = "gitlab-artifact|1095|build:docs" := by
  have h := fetchFailure_reported envFail "https://gitlab.example" "tokenA" astSample vSample
    0 "gitlab-artifact|1095|build:docs" 7 (by decide)
  have h2 := h.2.1 (by decide)
  exact ⟨h.1, h2.1, h2.2.1⟩

/-- C4: for matched node number i, when its fetch answers 200 and the
extraction succeeds, the run appends (at that node's slot, among exactly
one entry per matched node) the informational entry about the parsed
projectId and jobName at the node's position, the task clears the title to
the empty string, and extraction ran at the resolved destination. -/
theorem fetchSuccess_reported (env : Env) (apiBase token : String) (ast : Ast) (v : VFile)
    (i : Nat) (t : String) (p : Position)
    (hnode : (collectLinks ast)[i]? = some (t, p))
    (hstatus : (env.net (titleRequest apiBase token t)).status = 200)
    (hex : env.extract (getDestinationDir v) (env.net (titleRequest apiBase token t)).body =
      Except.ok ()) :
    (visitLink env apiBase token ast v).vFile.messages[v.messages.length + i]? =
      some ⟨.info, "artifacts fetched from " ++ titleProjectId t ++ " " ++ titleJobName t,
        p, PLUGIN_NAME⟩ ∧
    (visitLink env apiBase token ast v).vFile.messages.length =
      v.messages.length + (collectLinks ast).length ∧
    (runTask env apiBase token v t p).newTitle = "" ∧
    (runTask env apiBase token v t p).extracted =
      some (getDestinationDir v, (env.net (titleRequest apiBase token t)).body) := by
  have hne : collectLinks ast ≠ [] := by
    intro hemp
    rw [hemp] at hnode
    simp at hnode
  have hr := runTask_eq_of_ok env apiBase token v t p hstatus hex
  refine ⟨?_, visitLink_messages_length env apiBase token ast v hne, ?_, ?_⟩
  · rw [visitLink_message_at env apiBase token ast v i t p hnode, hr]
  · rw [hr]
  · rw [hr]

/-- C4 witness: one matching link, a 200 network and a clean extraction:
the info entry with the parsed projectId and jobName, exactly one entry,
the title cleared, and the extraction at the override directory. -/
theorem fetchSuccess_reported_witness :
    (visitLink envOk "https://gitlab.example" "tokenA" astSample vSample).vFile.messages[0]? =
      some ⟨.info, "artifacts fetched from 1095 build:docs", 7, "remark-gitlab-artifact"⟩ ∧
    (visitLink envOk "https://gitlab.example" "tokenA" astSample vSample).vFile.messages.length = 1 ∧
    (runTask envOk "https://gitlab.example" "tokenA" vSample
      "gitlab-artifact|1095|build:docs" 7).newTitle = "" ∧
    (runTask envOk "https://gitlab.example" "tokenA" vSample
      "gitlab-artifact|1095|build:docs" 7).extracted = some ("/out", "artifactZip") := by
  have h := fetchSuccess_reported envOk "https://gitlab.example" "tokenA" astSample vSample
    0 "gitlab-artifact|1095|build:docs" 7 (by decide) (by decide) rfl
  exact ⟨h.1, h.2.1, h.2.2.1, h.2.2.2⟩

/-- C1 counterexample: on the concrete malformed reference title (marker
present, one trailing segment missing) the transformer is NOT a no-match:
it issues a network call (with the missing jobName rendered as undefined)
and appends a diagnostic entry. -/
theorem malformedRef_counterexample :
    (visitLink envFail "https://gitlab.example" "token123" astMalformed vSample).reqs =
      [⟨"GET",
        "https://gitlab.example/api/v4/projects/onlyOneField/jobs/artifacts/master/download?job=undefined",
        [("PRIVATE-TOKEN", "token123")]⟩] ∧
    (visitLink envFail "https://gitlab.example" "token123" astMalformed
      vSample).vFile.messages.length = 1 := by
  decide

/-- C1 (amended): a link whose title contains the marker but splits into
only two pipe-delimited fields is still matched: exactly one fetch is
dispatched for it, with the second field as projectId and the missing
jobName rendered as the literal undefined; one diagnostic entry is appended
for it; and on fetch failure its title is left unchanged. -/
theorem malformedRef_matched (env : Env) (apiBase token : String) (ast : Ast) (v : VFile)
    (i : Nat) (t : String) (p : Position) (x : String)
    (hnode : (collectLinks ast)[i]? = some (t, p))
    (hfields : splitPipe t = ["gitlab-artifact", x]) :
    (visitLink env apiBase token ast v).reqs[i]? =
      some (artifactRequest apiBase token x "undefined") ∧
    (visitLink env apiBase token ast v).vFile.messages.length =
      v.messages.length + (collectLinks ast).length ∧
    ((env.net (artifactRequest apiBase token x "undefined")).status ≠ 200 →
      (runTask env apiBase token v t p).newTitle = t) := by
  have hne : collectLinks ast ≠ [] := by
    intro hemp
    rw [hemp] at hnode
    simp at hnode
  have hreq : titleRequest apiBase token t = artifactRequest apiBase token x "undefined" := by
    simp [titleRequest, titleProjectId, titleJobName, hfields, jsStr]
  refine ⟨?_, visitLink_messages_length env apiBase token ast v hne, fun hs => ?_⟩
  · rw [visitLink_reqs env apiBase token ast v hne, List.getElem?_map, List.getElem?_map,
      hnode]
    simp [runTask_req, hreq]
  · have hr := runTask_eq_of_fail env apiBase token v t p (by rw [hreq]; exact hs)
    rw [hr]

/-- C1 (amended) witness: the malformed reference on a concrete tree with a
404 network. -/
theorem malformedRef_matched_witness :
    (visitLink envFail "https://gitlab.example" "token123" astMalformed vSample).reqs[0]? =
      some (artifactRequest "https://gitlab.example" "token123" "onlyOneField" "undefined") ∧
    (visitLink envFail "https://gitlab.example" "token123" astMalformed
      vSample).vFile.messages.length = 1 ∧
    (runTask envFail "https://gitlab.example" "token123" vSample
      "gitlab-artifact|onlyOneField" 7).newTitle = "gitlab-artifact|onlyOneField" := by
  have h := malformedRef_matched envFail "https://gitlab.example" "token123" astMalformed
    vSample 0 "gitlab-artifact|onlyOneField" 7 "onlyOneField" (by decide) (by decide)
  exact ⟨h.1, h.2.1, h.2.2 (by decide)⟩

/-- C8: when every matched link's task succeeded (title cleared), the
returned tree has no matching link left, so a second run — under any
environment, apiBase and token — issues no network call, appends no
diagnostic entry, and returns the tree and vFile untouched. -/
theorem transformer_idempotent (env env' : Env) (apiBase apiBase' token token' : String)
    (ast : Ast) (v : VFile)
    (hsucc : ∀ tp ∈ collectLinks ast, (runTask env apiBase token v tp.1 tp.2).newTitle = "") :
    collectLinks (visitLink env apiBase token ast v).ast = [] ∧
    visitLink env' apiBase' token' (visitLink env apiBase token ast v).ast
        (visitLink env apiBase token ast v).vFile =
      ⟨(visitLink env apiBase token ast v).ast, (visitLink env apiBase token ast v).vFile,
       [], []⟩ := by
  have hempty : collectLinks (visitLink env apiBase token ast v).ast = [] := by
    rcases eq_or_ne (collectLinks ast) [] with he | he
    · rw [visitLink_eq_empty env apiBase token ast v he]
      exact he
    · rw [visitLink_ast env apiBase token ast v he]
      have hblank : ∀ s ∈ ((collectLinks ast).map
          (fun tp => runTask env apiBase token v tp.1 tp.2)).map TaskResult.newTitle,
          s = "" := by
        intro s hs
        simp only [List.map_map, List.mem_map] at hs
        obtain ⟨tp, htp, rfl⟩ := hs
        exact hsucc tp htp
      have hd := (collectLinks_applyTitles_blank ast _ hblank).1
      rw [hd]
      simp
  exact ⟨hempty, visitLink_eq_empty env' apiBase' token' _ _ hempty⟩

/-- C8 witness: a successful run on the concrete one-link document, then a
second run with a different token and a failing network: no effects. -/
theorem transformer_idempotent_witness :
    collectLinks (visitLink envOk "https://gitlab.example" "tokenA" astSample vSample).ast = [] ∧
    visitLink envFail "https://gitlab.example" "tokenB"
        (visitLink envOk "https://gitlab.example" "tokenA" astSample vSample).ast
        (visitLink envOk "https://gitlab.example" "tokenA" astSample vSample).vFile =
      ⟨(visitLink envOk "https://gitlab.example" "tokenA" astSample vSample).ast,
       (visitLink envOk "https://gitlab.example" "tokenA" astSample vSample).vFile,
       [], []⟩ := by
  have h := transformer_idempotent envOk envFail "https://gitlab.example"
    "https://gitlab.example" "tokenA" "tokenB" astSample vSample (by decide)
  exact ⟨h.1, h.2⟩

/-- C9: the token reaches only the request header, never a diagnostic: two
runs that differ only in the token, against networks answering identically
on those token-bearing requests, produce the same tree, the same vFile
(hence identical diagnostic reports), the same extractions, and requests
differing at most in the header. -/
theorem token_noninterference (net₁ net₂ : HttpRequest → HttpResponse)
    (ex : String → String → Except String Unit) (apiBase token₁ token₂ : String)
    (ast : Ast) (v : VFile)
    (hresp : ∀ m u, net₁ ⟨m, u, [("PRIVATE-TOKEN", token₁)]⟩ =
      net₂ ⟨m, u, [("PRIVATE-TOKEN", token₂)]⟩) :
    (visitLink ⟨net₁, ex⟩ apiBase token₁ ast v).ast =
      (visitLink ⟨net₂, ex⟩ apiBase token₂ ast v).ast ∧
    (visitLink ⟨net₁, ex⟩ apiBase token₁ ast v).vFile =
      (visitLink ⟨net₂, ex⟩ apiBase token₂ ast v).vFile ∧
    (visitLink ⟨net₁, ex⟩ apiBase token₁ ast v).extracts =
      (visitLink ⟨net₂, ex⟩ apiBase token₂ ast v).extracts ∧
    (visitLink ⟨net₁, ex⟩ apiBase token₁ ast v).reqs.map HttpRequest.url =
      (visitLink ⟨net₂, ex⟩ apiBase token₂ ast v).reqs.map HttpRequest.url := by
  have hnet : ∀ t : String,
      (⟨net₁, ex⟩ : Env).net (titleRequest apiBase token₁ t) =
        (⟨net₂, ex⟩ : Env).net (titleRequest apiBase token₂ t) := fun t =>
    hresp "GET" (artifactUrl apiBase (titleProjectId t) (titleJobName t))
  have key : ∀ t p,
      (runTask ⟨net₁, ex⟩ apiBase token₁ v t p).newTitle =
        (runTask ⟨net₂, ex⟩ apiBase token₂ v t p).newTitle ∧
      (runTask ⟨net₁, ex⟩ apiBase token₁ v t p).msg =
        (runTask ⟨net₂, ex⟩ apiBase token₂ v t p).msg ∧
      (runTask ⟨net₁, ex⟩ apiBase token₁ v t p).extracted =
        (runTask ⟨net₂, ex⟩ apiBase token₂ v t p).extracted ∧
      (runTask ⟨net₁, ex⟩ apiBase token₁ v t p).req.url =
        (runTask ⟨net₂, ex⟩ apiBase token₂ v t p).req.url := by
    intro t p
    by_cases hs : ((⟨net₁, ex⟩ : Env).net (titleRequest apiBase token₁ t)).status ≠ 200
    · have h₁ := runTask_eq_of_fail ⟨net₁, ex⟩ apiBase token₁ v t p hs
      have h₂ := runTask_eq_of_fail ⟨net₂, ex⟩ apiBase token₂ v t p (by rw [← hnet t]; exact hs)
      rw [h₁, h₂, hnet t]
      exact ⟨rfl, rfl, rfl, rfl⟩
    · push_neg at hs
      have hs₂ : ((⟨net₂, ex⟩ : Env).net (titleRequest apiBase token₂ t)).status = 200 := by
        rw [← hnet t]
        exact hs
      cases hx : ex (getDestinationDir v)
          (((⟨net₁, ex⟩ : Env).net (titleRequest apiBase token₁ t)).body) with
      | ok u =>
          cases u
          have h₁ := runTask_eq_of_ok ⟨net₁, ex⟩ apiBase token₁ v t p hs hx
          have h₂ := runTask_eq_of_ok ⟨net₂, ex⟩ apiBase token₂ v t p hs₂
            (by rw [← hnet t]; exact hx)
          rw [h₁, h₂, hnet t]
          exact ⟨rfl, rfl, rfl, rfl⟩
      | error e =>
          have h₁ := runTask_eq_of_extract_fail ⟨net₁, ex⟩ apiBase token₁ v t p e hs hx
          have h₂ := runTask_eq_of_extract_fail ⟨net₂, ex⟩ apiBase token₂ v t p e hs₂
            (by rw [← hnet t]; exact hx)
          rw [h₁, h₂]
          exact ⟨rfl, rfl, rfl, rfl⟩
  rcases eq_or_ne (collectLinks ast) [] with he | he
  · rw [visitLink_eq_empty ⟨net₁, ex⟩ apiBase token₁ ast v he,
      visitLink_eq_empty ⟨net₂, ex⟩ apiBase token₂ ast v he]
    exact ⟨rfl, rfl, rfl, rfl⟩
  · refine ⟨?_, ?_, ?_, ?_⟩
    · rw [visitLink_ast ⟨net₁, ex⟩ apiBase token₁ ast v he,
        visitLink_ast ⟨net₂, ex⟩ apiBase token₂ ast v he]
      have : ((collectLinks ast).map
          (fun tp => runTask ⟨net₁, ex⟩ apiBase token₁ v tp.1 tp.2)).map TaskResult.newTitle =
          ((collectLinks ast).map
          (fun tp => runTask ⟨net₂, ex⟩ apiBase token₂ v tp.1 tp.2)).map TaskResult.newTitle := by
        simp only [List.map_map]
        exact List.map_congr_left (fun tp _ => (key tp.1 tp.2).1)
      rw [this]
    · rw [visitLink_vFile ⟨net₁, ex⟩ apiBase token₁ ast v he,
        visitLink_vFile ⟨net₂, ex⟩ apiBase token₂ ast v he]
      have : ((collectLinks ast).map
          (fun tp => runTask ⟨net₁, ex⟩ apiBase token₁ v tp.1 tp.2)).map TaskResult.msg =
          ((collectLinks ast).map
          (fun tp => runTask ⟨net₂, ex⟩ apiBase token₂ v tp.1 tp.2)).map TaskResult.msg := by
        simp only [List.map_map]
        exact List.map_congr_left (fun tp _ => (key tp.1 tp.2).2.1)
      rw [this]
    · rw [visitLink_extracts ⟨net₁, ex⟩ apiBase token₁ ast v he,
        visitLink_extracts ⟨net₂, ex⟩ apiBase token₂ ast v he,
        List.filterMap_map, List.filterMap_map]
      exact List.filterMap_congr (fun tp _ => (key tp.1 tp.2).2.2.1)
    · rw [visitLink_reqs ⟨net₁, ex⟩ apiBase token₁ ast v he,
        visitLink_reqs ⟨net₂, ex⟩ apiBase token₂ ast v he]
      simp only [List.map_map]
      exact List.map_congr_left (fun tp _ => (key tp.1 tp.2).2.2.2)

/-- C9 witness: two concrete runs differing only in the token against the
same all-404 network: identical vFile, tree scan, extractions and URLs. -/
theorem token_noninterference_witness :
    (visitLink ⟨netFail, extractOk⟩ "https://gitlab.example" "tokenA" astSample vSample).vFile =
      (visitLink ⟨netFail, extractOk⟩ "https://gitlab.example" "tokenB" astSample vSample).vFile ∧
    (visitLink ⟨netFail, extractOk⟩ "https://gitlab.example" "tokenA" astSample
        vSample).reqs.map HttpRequest.url =
      (visitLink ⟨netFail, extractOk⟩ "https://gitlab.example" "tokenB" astSample
        vSample).reqs.map HttpRequest.url := by
  have h := token_noninterference netFail netFail extractOk "https://gitlab.example"
    "tokenA" "tokenB" astSample vSample (fun m u => rfl)
  exact ⟨h.2.1, h.2.2.2⟩

/-- C10: the scanner's match predicate is exactly non-emptiness plus
occurrence of the marker anywhere in the title; a matched node's request is
built from fields 1 and 2 of the pipe split of the whole title (not from
the segments after the marker); and a missing field 2 is sent as the
literal undefined in the URL. -/
theorem scanner_semantics (env : Env) (apiBase token : String) (v : VFile)
    (t : String) (p : Position) :
    (matchTitle (some t) = true ↔ t ≠ "" ∧ ∃ a b : String, t = a ++ marker ++ b) ∧
    (runTask env apiBase token v t p).req =
      artifactRequest apiBase token (jsStr (splitPipe t)[1]?) (jsStr (splitPipe t)[2]?) ∧
    ((splitPipe t)[2]? = none →
      (runTask env apiBase token v t p).req.url =
        artifactUrl apiBase (jsStr (splitPipe t)[1]?) "undefined") := by
  refine ⟨matchTitle_iff t, runTask_req env apiBase token v t p, fun h2 => ?_⟩
  rw [runTask_req env apiBase token v t p]
  simp [titleRequest, titleJobName, titleProjectId, artifactRequest, h2, jsStr]

/-- C10 witness: a title with the marker in second position is matched, yet
its projectId and jobName come from absolute fields 1 and 2 of the split
(the marker itself and the segment after it); a two-field title yields a
URL ending in the literal undefined job. -/
theorem scanner_semantics_witness :
    matchTitle (some "x|gitlab-artifact|a|b") = true ∧
    (runTask envFail "https://gitlab.example" "tokenC" vSample "x|gitlab-artifact|a|b" 3).req =
      artifactRequest "https://gitlab.example" "tokenC" "gitlab-artifact" "a" ∧
    (runTask envFail "https://gitlab.example" "tokenC" vSample
        "gitlab-artifact|onlyOneField" 3).req.url =
      artifactUrl "https://gitlab.example" "onlyOneField" "undefined" := by
  refine ⟨?_, ?_, ?_⟩
  · exact (scanner_semantics envFail "https://gitlab.example" "tokenC" vSample
      "x|gitlab-artifact|a|b" 3).1.mpr ⟨by decide, "x|", "a|b", by decide⟩
  · exact (scanner_semantics envFail "https://gitlab.example" "tokenC" vSample
      "x|gitlab-artifact|a|b" 3).2.1
  · exact (scanner_semantics envFail "https://gitlab.example" "tokenC" vSample
      "gitlab-artifact|onlyOneField" 3).2.2 (by decide)

end Remark
